import Mathlib

set_option linter.unusedVariables false

/-!
# Verification of `tana-stdio` (src/rust/src/lib.rs)

A shallow embedding of the `tana_stdio` Rust crate: a terminal-output
formatting utility whose emitters write fixed-shape lines to stderr,
gated by a process-wide log level resolved once from the `LOG_LEVEL`
environment variable.

Modelling conventions:
* A Rust emitter that writes to stderr becomes a pure function returning
  the `List String` of lines it writes (each `eprintln!` contributes one
  line; an empty list means no output).
* The process-wide cached severity (`static LOG_LEVEL: OnceLock<LogLevel>`)
  is threaded explicitly: emitters take the resolved `LogLevel` as their
  first argument, and the caching behaviour of `log_level()` is modelled
  as explicit state passing over an `Option LogLevel` cache.
* Rust `str::to_lowercase` is modelled character-wise with `Char.toLower`
  (faithful on ASCII, which is all the `match` arms inspect).
* The environment variable is `Option String` (`none` = unset).
-/

namespace TanaStdio

/-- Rust `enum LogLevel` from the source, with discriminants
`Error = 0`, `Info = 1`, `Debug = 2` and its derived total order. -/
inductive LogLevel where
  | Error : LogLevel
  | Info : LogLevel
  | Debug : LogLevel
deriving DecidableEq, Repr

/-- The discriminant of the Rust enum (`Error = 0`, `Info = 1`, `Debug = 2`). -/
def LogLevel.toNat : LogLevel → Nat
  | .Error => 0
  | .Info => 1
  | .Debug => 2

instance : LE LogLevel := ⟨fun a b => a.toNat ≤ b.toNat⟩

instance instDecidableLeLogLevel (a b : LogLevel) : Decidable (a ≤ b) :=
  inferInstanceAs (Decidable (a.toNat ≤ b.toNat))

/-- Character-wise lowercasing, modelling Rust `str::to_lowercase`
(agreeing with it on ASCII input). -/
def lowerStr (s : String) : String := ⟨s.data.map Char.toLower⟩

/-- Rust `LogLevel::from_str`: match on the lowercased string; `"error"` and
`"debug"` map to their variants, everything else to `Info`. -/
def LogLevel.from_str (s : String) : LogLevel :=
  if lowerStr s = "error" then LogLevel.Error
  else if lowerStr s = "debug" then LogLevel.Debug
  else LogLevel.Info

/-- Rust `env::var("LOG_LEVEL").map(|s| LogLevel::from_str(&s)).unwrap_or(LogLevel::Info)`:
the resolution performed inside `log_level()`'s `get_or_init` closure. -/
def resolveEnv : Option String → LogLevel
  | some s => LogLevel.from_str s
  | none => LogLevel.Info

/-- One call to `log_level()`: `LOG_LEVEL.get_or_init(...)` on the
`OnceLock` cache, returning the value and the cache afterwards. -/
def log_level (cache : Option LogLevel) (env : Option String) :
    LogLevel × Option LogLevel :=
  match cache with
  | some v => (v, some v)
  | none => (resolveEnv env, some (resolveEnv env))

/-- A sequence of `log_level()` calls, each observing a possibly different
value of the environment variable, threading the `OnceLock` cache. -/
def runCalls (cache : Option LogLevel) : List (Option String) → List LogLevel
  | [] => []
  | e :: es => ((log_level cache e).1) :: runCalls (log_level cache e).2 es

/-- Rust `is_debug()`: `log_level() >= LogLevel::Debug`, with the resolved
level passed explicitly. -/
def is_debug (lv : LogLevel) : Bool := LogLevel.Debug ≤ lv

/-- Rust `is_info()`: `log_level() >= LogLevel::Info`. -/
def is_info (lv : LogLevel) : Bool := LogLevel.Info ≤ lv

/-- Rust `log(action, message)`: prints `[action] message` iff
`log_level() >= LogLevel::Info`. -/
def log (lv : LogLevel) (action message : String) : List String :=
  if LogLevel.Info ≤ lv then ["[" ++ action ++ "] " ++ message] else []

/-- Rust `error(action, message)`: always prints `[action] message`. -/
def error (lv : LogLevel) (action message : String) : List String :=
  ["[" ++ action ++ "] " ++ message]

/-- Rust `warn(name, message)`: always prints `[warn] [name] message`. -/
def warn (lv : LogLevel) (name message : String) : List String :=
  ["[warn] [" ++ name ++ "] " ++ message]

/-- Rust `warn_simple(message)`: always prints `[warn] message`. -/
def warn_simple (lv : LogLevel) (message : String) : List String :=
  ["[warn] " ++ message]

/-- Rust `status(name, message, ok)`: prints `[ok] [name] message` when `ok`,
else `[fail] [name] message`. -/
def status (lv : LogLevel) (name message : String) (ok : Bool) : List String :=
  if ok then ["[ok] [" ++ name ++ "] " ++ message]
  else ["[fail] [" ++ name ++ "] " ++ message]

/-- Rust `header(title)`: a blank line, the title, then `"-".repeat(40)`. -/
def header (lv : LogLevel) (title : String) : List String :=
  ["", title, ⟨List.replicate 40 '-'⟩]

/-- Rust `blank()`: a single blank line. -/
def blank (lv : LogLevel) : List String := [""]

/-- Rust `success(message)`: always prints `[ok] message`. -/
def success (lv : LogLevel) (message : String) : List String :=
  ["[ok] " ++ message]

/-- Rust `fail(message)`: always prints `[fail] message`. -/
def fail (lv : LogLevel) (message : String) : List String :=
  ["[fail] " ++ message]

/-- Rust format-spec `:<10` applied to a string field: left-aligned,
padded on the right with spaces up to the field width (in characters),
never truncated. -/
def padTo (width : Nat) (s : String) : String :=
  s ++ ⟨List.replicate (width - s.length) ' '⟩

/-- Rust `info(label, value)`: `eprintln!` with a two-space indent, the
label under format-spec `:<10`, a single space, then the value. -/
def info (lv : LogLevel) (label value : String) : List String :=
  ["  " ++ padTo 10 label ++ " " ++ value]

/-- Rust `hint(message)`: two-space indent then the message. -/
def hint (lv : LogLevel) (message : String) : List String :=
  ["  " ++ message]

/-- Rust `detail(message)`: four-space indent, `-> `, then the message. -/
def detail (lv : LogLevel) (message : String) : List String :=
  ["    -> " ++ message]

/-- Rust `next_step(description, command)`: `  -> description: command`. -/
def next_step (lv : LogLevel) (description command : String) : List String :=
  ["  -> " ++ description ++ ": " ++ command]

/-- Rust `diagnostic(component, message)`: always prints
`[warn] [component] message`. -/
def diagnostic (lv : LogLevel) (component message : String) : List String :=
  ["[warn] [" ++ component ++ "] " ++ message]

/-- Rust `logf!(action, ...)` macro: prints `[action] formatted-message`
iff `log_level() >= LogLevel::Info`; modelled at the already-formatted
message produced by `format!`. -/
def logf (lv : LogLevel) (action formatted : String) : List String :=
  if LogLevel.Info ≤ lv then ["[" ++ action ++ "] " ++ formatted] else []

/-- Rust `errorf!(action, ...)`: always prints `[action] formatted-message`. -/
def errorf (lv : LogLevel) (action formatted : String) : List String :=
  ["[" ++ action ++ "] " ++ formatted]

/-- Rust `debugf!(action, ...)`: prints `[action] formatted-message` iff
`log_level() >= LogLevel::Debug`. -/
def debugf (lv : LogLevel) (action formatted : String) : List String :=
  if LogLevel.Debug ≤ lv then ["[" ++ action ++ "] " ++ formatted] else []

/-- Rust `debug(action, message)`: prints `[action] message` iff
`log_level() >= LogLevel::Debug`. -/
def debug (lv : LogLevel) (action message : String) : List String :=
  if LogLevel.Debug ≤ lv then ["[" ++ action ++ "] " ++ message] else []

/-- The padding the spec's literal words "left-padded to a minimum width
of 10" describe: spaces added on the LEFT of the label. Written from the
spec, to be compared against the code's `padTo`. -/
def leftPadTo (width : Nat) (s : String) : String :=
  (⟨List.replicate (width - s.length) ' '⟩ : String) ++ s

/-!
## Helper lemmas
-/

/-- Lowercasing a string character-wise preserves its character count. -/
theorem lowerStr_length (s : String) : (lowerStr s).length = s.length := by
  show (String.mk (s.data.map Char.toLower)).length = s.length
  rw [String.length_mk, List.length_map]
  cases s
  rfl

/-- String append is associative (helper restated for rewriting). -/
theorem strAppend_assoc (a b c : String) : a ++ b ++ c = a ++ (b ++ c) := by
  apply String.ext
  simp [String.data_append, List.append_assoc]

/-- Once the cache holds `v`, every further `log_level()` call returns `v`. -/
theorem runCalls_cached (v : LogLevel) (es : List (Option String)) :
    runCalls (some v) es = List.replicate es.length v := by
  induction es with
  | nil => rfl
  | cons e es ih => simp [runCalls, log_level, ih, List.replicate]

/-!
## Claim theorems
-/

/-- C1: when the resolved severity is `Error`, `log` and `debug` produce no
output while `error`, `warn`, `success`, `fail`, `status`, `header` and
`info` still produce their (severity-independent) output; when the
resolved severity is `Debug`, every emitter — `log`, `debug`, `error`,
`warn`, `warn_simple`, `success`, `fail`, `status`, `header`, `info`,
`hint`, `detail`, `next_step`, `diagnostic` and `blank` — produces its
output. -/
theorem severity_gating
    (action message name label value title description command : String)
    (ok : Bool) :
    log LogLevel.Error action message = [] ∧
    debug LogLevel.Error action message = [] ∧
    (error LogLevel.Error action message = error LogLevel.Debug action message ∧
      error LogLevel.Error action message ≠ []) ∧
    (warn LogLevel.Error name message = warn LogLevel.Debug name message ∧
      warn LogLevel.Error name message ≠ []) ∧
    (success LogLevel.Error message = success LogLevel.Debug message ∧
      success LogLevel.Error message ≠ []) ∧
    (fail LogLevel.Error message = fail LogLevel.Debug message ∧
      fail LogLevel.Error message ≠ []) ∧
    (status LogLevel.Error name message ok = status LogLevel.Debug name message ok ∧
      status LogLevel.Error name message ok ≠ []) ∧
    (header LogLevel.Error title = header LogLevel.Debug title ∧
      header LogLevel.Error title ≠ []) ∧
    (info LogLevel.Error label value = info LogLevel.Debug label value ∧
      info LogLevel.Error label value ≠ []) ∧
    log LogLevel.Debug action message ≠ [] ∧
    debug LogLevel.Debug action message ≠ [] ∧
    warn_simple LogLevel.Debug message ≠ [] ∧
    hint LogLevel.Debug message ≠ [] ∧
    detail LogLevel.Debug message ≠ [] ∧
    next_step LogLevel.Debug description command ≠ [] ∧
    diagnostic LogLevel.Debug name message ≠ [] ∧
    blank LogLevel.Debug ≠ [] := by
  have h1 : ¬ (LogLevel.Info ≤ LogLevel.Error) := by decide
  have h2 : LogLevel.Info ≤ LogLevel.Debug := by decide
  have h3 : ¬ (LogLevel.Debug ≤ LogLevel.Error) := by decide
  have h4 : LogLevel.Debug ≤ LogLevel.Debug := by decide
  cases ok <;>
    simp [log, debug, error, warn, warn_simple, success, fail, status,
      header, info, hint, detail, next_step, diagnostic, blank,
      h1, h2, h3, h4]

/-- C2 counterexample: `info("port", "8506")` is NOT the two-space indent
followed by the label left-padded (spaces on the left) to width 10, a
space and the value: the code left-aligns the label and pads on the
right instead. -/
theorem info_not_left_padded :
    info LogLevel.Info "port" "8506" ≠
      ["  " ++ leftPadTo 10 "port" ++ " " ++ "8506"] := by
  decide

/-- C2 (amended): `info(label, value)` writes exactly one line: a
two-space indent, the label immediately (left-aligned), then enough
spaces on the right to reach a field width of `max label.length 10`
(minimum width 10, never truncated), a single space, then the value. -/
theorem info_line_shape (lv : LogLevel) (label value : String) :
    ∃ n : Nat,
      info lv label value =
        ["  " ++ label ++ (⟨List.replicate n ' '⟩ : String) ++ " " ++ value] ∧
      label.length + n = max label.length 10 := by
  refine ⟨10 - label.length, ?_, by omega⟩
  simp only [info, padTo, List.cons.injEq, and_true]
  rw [← strAppend_assoc]

/-- C3: `LOG_LEVEL` parsing is case-insensitive — strings equal up to
character case parse to the same severity; in particular `"ERROR"`,
`"Error"`, `"error"` all yield `Error` and `"DEBUG"`, `"debug"` both
yield `Debug`. -/
theorem from_str_case_insensitive :
    (∀ s t : String, lowerStr s = lowerStr t →
      LogLevel.from_str s = LogLevel.from_str t) ∧
    LogLevel.from_str "ERROR" = LogLevel.Error ∧
    LogLevel.from_str "Error" = LogLevel.Error ∧
    LogLevel.from_str "error" = LogLevel.Error ∧
    LogLevel.from_str "DEBUG" = LogLevel.Debug ∧
    LogLevel.from_str "debug" = LogLevel.Debug := by
  refine ⟨fun s t h => ?_, by decide, by decide, by decide, by decide, by decide⟩
  unfold LogLevel.from_str
  rw [h]

/-- C3 witness: the case-insensitivity theorem applied at `"ERROR"` and
`"error"`. -/
theorem from_str_case_insensitive_witness :
    LogLevel.from_str "ERROR" = LogLevel.from_str "error" :=
  from_str_case_insensitive.1 "ERROR" "error" (by decide)

/-- C4: any string not case-insensitively equal to `"error"` or `"debug"`
parses to `Info`; the empty string parses to `Info`; an unset variable
resolves to `Info`; and resolution is total (defined on every input). -/
theorem from_str_defaults_to_info (s : String)
    (he : lowerStr s ≠ "error") (hd : lowerStr s ≠ "debug") :
    LogLevel.from_str s = LogLevel.Info ∧
    LogLevel.from_str "" = LogLevel.Info ∧
    resolveEnv none = LogLevel.Info ∧
    (∀ env : Option String, ∃ lv : LogLevel, resolveEnv env = lv) := by
  refine ⟨?_, by decide, rfl, fun env => ⟨resolveEnv env, rfl⟩⟩
  simp [LogLevel.from_str, he, hd]

/-- C4 witness: the default theorem applied at `"verbose"`. -/
theorem from_str_defaults_to_info_witness :
    LogLevel.from_str "verbose" = LogLevel.Info :=
  (from_str_defaults_to_info "verbose" (by decide) (by decide)).1

/-- C5: severity is resolved at most once — a call finding the cache
filled returns the cached value untouched, and in any sequence of calls
starting from an empty cache every call returns the value resolved from
the FIRST call's environment, whatever the variable holds later. -/
theorem log_level_cached :
    (∀ (v : LogLevel) (env : Option String),
      log_level (some v) env = (v, some v)) ∧
    (∀ (env0 : Option String) (envs : List (Option String)),
      runCalls none (env0 :: envs) =
        List.replicate (envs.length + 1) (resolveEnv env0)) := by
  refine ⟨fun v env => rfl, fun env0 envs => ?_⟩
  simp [runCalls, log_level, runCalls_cached, List.replicate]

/-- C6: the formatted variants mirror their non-templated counterparts —
`logf` equals `log`, `errorf` equals `error` and `debugf` equals `debug`
at the pre-formatted message, and each produces the single line
`[action] formatted-message` exactly under its counterpart's gate. -/
theorem formatted_variants_mirror (lv : LogLevel) (action m : String) :
    logf lv action m = log lv action m ∧
    errorf lv action m = error lv action m ∧
    debugf lv action m = debug lv action m ∧
    (logf lv action m = ["[" ++ action ++ "] " ++ m] ↔ LogLevel.Info ≤ lv) ∧
    errorf lv action m = ["[" ++ action ++ "] " ++ m] ∧
    (debugf lv action m = ["[" ++ action ++ "] " ++ m] ↔ LogLevel.Debug ≤ lv) := by
  refine ⟨rfl, rfl, rfl, ?_, rfl, ?_⟩
  · by_cases h : LogLevel.Info ≤ lv <;> simp [logf, h]
  · by_cases h : LogLevel.Debug ≤ lv <;> simp [debugf, h]

/-- C7: `header(title)` writes exactly three lines, regardless of
severity: a blank line, the title verbatim, and a line of exactly 40
hyphen-minus characters. -/
theorem header_shape (lv : LogLevel) (title : String) :
    header lv title = ["", title, (⟨List.replicate 40 '-'⟩ : String)] ∧
    (header lv title).length = 3 ∧
    (⟨List.replicate 40 '-'⟩ : String).length = 40 ∧
    ((⟨List.replicate 40 '-'⟩ : String).data.all fun c => c == '-') = true := by
  exact ⟨rfl, rfl, by decide, by decide⟩

/-- C8: `diagnostic(component, message)` produces output identical to
`warn(component, message)` — the single ungated line
`[warn] [component] message`. -/
theorem diagnostic_eq_warn (lv : LogLevel) (component message : String) :
    diagnostic lv component message = warn lv component message ∧
    diagnostic lv component message =
      ["[warn] [" ++ component ++ "] " ++ message] :=
  ⟨rfl, rfl⟩

/-- C9: whenever the resolved severity is `Info` or `Debug`,
`log(action, message)` emits exactly the same line as
`error(action, message)`. -/
theorem log_eq_error_when_enabled (lv : LogLevel) (action message : String)
    (h : lv = LogLevel.Info ∨ lv = LogLevel.Debug) :
    log lv action message = error lv action message := by
  have hle : LogLevel.Info ≤ lv := by
    rcases h with h | h <;> subst h <;> decide
  simp [log, error, hle]

/-- C9 witness: the theorem applied at severity `Info`. -/
theorem log_eq_error_when_enabled_witness :
    log LogLevel.Info "build" "compiling contract..." =
      error LogLevel.Info "build" "compiling contract..." :=
  log_eq_error_when_enabled LogLevel.Info "build" "compiling contract..."
    (Or.inl rfl)

/-- C10: parsing performs no whitespace trimming — surrounding `"error"`
or `"debug"` with any (nonempty) leading or trailing whitespace yields a
string that is not case-insensitively equal to those keywords and hence
resolves to `Info`; in particular `" error"` and `"debug "` resolve to
`Info`. -/
theorem from_str_no_trimming :
    (∀ pre post : String,
      (pre ≠ "" ∨ post ≠ "") →
      (∀ c ∈ pre.data, c.isWhitespace) →
      (∀ c ∈ post.data, c.isWhitespace) →
      lowerStr (pre ++ "error" ++ post) ≠ "error" ∧
      lowerStr (pre ++ "debug" ++ post) ≠ "debug" ∧
      LogLevel.from_str (pre ++ "error" ++ post) = LogLevel.Info ∧
      LogLevel.from_str (pre ++ "debug" ++ post) = LogLevel.Info) ∧
    LogLevel.from_str " error" = LogLevel.Info ∧
    LogLevel.from_str "debug " = LogLevel.Info := by
  refine ⟨fun pre post hne _ _ => ?_, by decide, by decide⟩
  have hlen : ∀ mid : String, (lowerStr (pre ++ mid ++ post)).length =
      pre.length + mid.length + post.length := by
    intro mid
    simp [lowerStr_length, String.length_append]
  have hpre : pre ≠ "" → pre.length ≠ 0 := by
    intro hp hlen0
    apply hp
    apply String.ext
    have : pre.data.length = 0 := hlen0
    simpa using List.length_eq_zero.mp this
  have hpost : post ≠ "" → post.length ≠ 0 := by
    intro hp hlen0
    apply hp
    apply String.ext
    have : post.data.length = 0 := hlen0
    simpa using List.length_eq_zero.mp this
  have hpos : pre.length ≠ 0 ∨ post.length ≠ 0 := by
    rcases hne with h | h
    · exact Or.inl (hpre h)
    · exact Or.inr (hpost h)
  have he5 : ("error" : String).length = 5 := by decide
  have hd5 : ("debug" : String).length = 5 := by decide
  have hkey : ∀ mid kw : String, mid.length = 5 → kw.length = 5 →
      lowerStr (pre ++ mid ++ post) ≠ kw := by
    intro mid kw hm hk h
    have hl := congrArg String.length h
    rw [hlen mid, hm, hk] at hl
    rcases hpos with hp | hp <;> omega
  have hce := hkey "error" "error" he5 he5
  have hcd := hkey "debug" "debug" hd5 hd5
  have hced := hkey "error" "debug" he5 hd5
  have hcde := hkey "debug" "error" hd5 he5
  exact ⟨hce, hcd, by simp [LogLevel.from_str, hce, hced],
    by simp [LogLevel.from_str, hcd, hcde]⟩

/-- C10 witness: the no-trimming theorem applied at a single leading
space around `"error"`. -/
theorem from_str_no_trimming_witness :
    LogLevel.from_str (" " ++ "error" ++ "") = LogLevel.Info :=
  (from_str_no_trimming.1 " " "" (Or.inl (by decide)) (by decide)
    (by decide)).2.2.1

end TanaStdio
